import Mathlib

/-!
Shallow embedding of the Activity & Announcement Service
(`src/backend/routers/activities.py`).

The document store is modelled as association lists keyed by the Mongo
`_id` string.  Each HTTP handler becomes a pure function from a `Store`
and its request parameters to a pair `(status, store)` where `status`
is the HTTP status code (200 on success) and `store` the post-request
store.  Optional query/body parameters become `Option String`; Python
string truthiness (`if day:` being false for both `None` and `""`) is
made explicit at every use site.
-/

namespace ActivityService

/-- `schedule_details` sub-document of an activity.  `start_time` /
`end_time` are optional string fields (`sd.get("start_time")` may be
absent). -/
structure Schedule where
  days : List String
  start_time : Option String
  end_time : Option String
deriving DecidableEq, Repr

/-- An activity document (minus its `_id`, which is the assoc-list key):
`participants` plus the optional `schedule_details` sub-document.
An absent `schedule_details` and an empty sub-document behave
identically in every handler (both are falsy in Python), so `none`
models both. -/
structure Activity where
  participants : List String
  schedule_details : Option Schedule
deriving DecidableEq, Repr

/-- An announcement document (minus its `_id`):
`message`, `expiration_date`, optional `start_date`. -/
structure Announcement where
  message : String
  expiration_date : String
  start_date : Option String
deriving DecidableEq, Repr

/-- The three collections used by the router, plus a counter standing in
for the store's id assignment on `insert_one`.  A teacher document is
referenced only by its `_id` (username), so the teachers collection is
a list of usernames. -/
structure Store where
  activities : List (String × Activity)
  teachers : List String
  announcements : List (String × Announcement)
  annCounter : Nat
deriving DecidableEq, Repr

/-- `find_one({"_id": id})` on an assoc-list collection. -/
def findOne {β : Type} (l : List (String × β)) (id : String) : Option β :=
  (l.find? (fun p => p.1 = id)).map (·.2)

/-- `update_one({"_id": id}, mutation)`: apply `g` to the first document
whose `_id` matches (Mongo's `update_one` updates at most one
document); later documents are untouched. -/
def updateOne {β : Type} (l : List (String × β)) (id : String) (g : β → β) :
    List (String × β) :=
  match l with
  | [] => []
  | p :: rest => if p.1 = id then (p.1, g p.2) :: rest else p :: updateOne rest id g

/-- `matched_count` of an `update_one` on an `_id` filter: 1 iff some
document has that `_id`. -/
def matchedCount {β : Type} (l : List (String × β)) (id : String) : Nat :=
  if l.any (fun p => p.1 = id) then 1 else 0

/-- Python truthiness of an optional string parameter: `None` and `""`
are falsy, everything else truthy. -/
def optTruthy : Option String → Bool
  | none => false
  | some s => s ≠ ""

/-! ## `list_activities` (GET /activities) -/

/-- Day filter body: `sd = a.get("schedule_details") or {}`;
`days = sd.get("days", [])`; keep iff `day in days`. -/
def dayFilter (d : String) (a : Activity) : Bool :=
  let days := match a.schedule_details with
    | some sd => sd.days
    | none => []
  days.contains d

/-- Time filter body: drop when `schedule_details` is falsy, when
`start_time`/`end_time` are absent or falsy, or when
`s < start_time or e > end_time` (lexicographic string compare). -/
def timeFilter (qs qe : String) (a : Activity) : Bool :=
  match a.schedule_details with
  | none => false
  | some sd =>
    match sd.start_time, sd.end_time with
    | some s, some e =>
      if s = "" ∨ e = "" then false
      else decide (¬ (s < qs ∨ qe < e))
    | _, _ => false

/-- `list_activities(day?, start_time?, end_time?)`: all activities
(in store order) passing the day filter (active when `day` is truthy)
and the time filter (active only when *both* bounds are truthy). -/
def list_activities (st : Store) (day start_time end_time : Option String) :
    List (String × Activity) :=
  st.activities.filter (fun p =>
    (match day with
     | some d => if d = "" then true else dayFilter d p.2
     | none => true)
    &&
    (match start_time, end_time with
     | some qs, some qe =>
       if qs = "" ∨ qe = "" then true else timeFilter qs qe p.2
     | _, _ => true))

/-! ## `get_available_days` (GET /activities/days) -/

/-- The `$unwind "$schedule_details.days"` stage: one entry per day per
activity, in document order; documents without the path contribute
nothing. -/
def unwoundDays (st : Store) : List String :=
  st.activities.flatMap (fun p =>
    match p.2.schedule_details with
    | some sd => sd.days
    | none => [])

/-- `get_available_days()`: distinct days (`$group`) sorted ascending
(`$sort {_id: 1}`). -/
def get_available_days (st : Store) : List String :=
  List.insertionSort (· ≤ ·) (unwoundDays st).dedup

/-! ## Authentication and date validation -/

/-- `is_authenticated(username)`: a teacher document with this `_id`
exists. -/
def is_authenticated (st : Store) (username : String) : Bool :=
  st.teachers.contains username

/-- Split a character list at every `'-'`, the separator of the
`"%Y-%m-%d"` format (done on the character list so that it evaluates by
kernel reduction). -/
def splitDash : List Char → List (List Char)
  | [] => [[]]
  | c :: rest =>
    match splitDash rest with
    | [] => [[]]
    | g :: gs => if c = '-' then [] :: g :: gs else (c :: g) :: gs

/-- Value of a digit group (groups are checked all-digit first). -/
def digitsVal (cs : List Char) : Nat :=
  cs.foldl (fun n c => n * 10 + (c.toNat - 48)) 0

/-- Gregorian leap year, as `datetime.date` uses. -/
def isLeap (y : Nat) : Bool :=
  (y % 4 == 0 && y % 100 != 0) || (y % 400 == 0)

/-- Days in a month, as `datetime.date` validates. -/
def daysInMonth (y m : Nat) : Nat :=
  if m = 2 then (if isLeap y then 29 else 28)
  else if m = 4 ∨ m = 6 ∨ m = 9 ∨ m = 11 then 30
  else 31

/-- `datetime.strptime(s, "%Y-%m-%d")` succeeding: exactly four year
digits, one or two month digits (value 1..12), one or two day digits
whose value is valid for that month/year, year at least 1
(`datetime.MINYEAR`), and nothing else in the string. -/
def validDateYMD (s : String) : Bool :=
  match splitDash s.data with
  | [y, m, d] =>
    y.length == 4 && y.all Char.isDigit && decide (1 ≤ digitsVal y)
    && (m.length == 1 || m.length == 2) && m.all Char.isDigit
    && decide (1 ≤ digitsVal m) && decide (digitsVal m ≤ 12)
    && (d.length == 1 || d.length == 2) && d.all Char.isDigit
    && decide (1 ≤ digitsVal d)
    && decide (digitsVal d ≤ daysInMonth (digitsVal y) (digitsVal m))
  | _ => false

/-! ## Announcements CRUD -/

/-- `create_announcement(username, message, expiration_date,
start_date?)` (POST /activities/announcements): 401 without a teacher
record, 400 on empty `message`/`expiration_date`, 400 on a date that
fails `%Y-%m-%d` parsing (`start_date` is only parsed when truthy);
otherwise inserts a new document with a store-assigned id.  Returns
`(status, store)`. -/
def create_announcement (st : Store) (username message expiration_date : String)
    (start_date : Option String) : Nat × Store :=
  if ¬ is_authenticated st username then (401, st)
  else if message = "" ∨ expiration_date = "" then (400, st)
  else if ¬ validDateYMD expiration_date then (400, st)
  else if optTruthy start_date ∧ ¬ validDateYMD (start_date.getD "") then (400, st)
  else
    let newId := "ann" ++ toString st.annCounter
    let doc : Announcement :=
      { message := message, expiration_date := expiration_date,
        start_date := if optTruthy start_date then start_date else none }
    (200, { st with announcements := st.announcements ++ [(newId, doc)],
                    annCounter := st.annCounter + 1 })

/-- `update_announcement(id, username, message, expiration_date,
start_date?)` (PUT /activities/announcements/{id}): 401 without a
teacher record; 400 when `expiration_date` (or a truthy `start_date`)
fails `%Y-%m-%d` parsing — note the code has no emptiness check here,
unlike `create_announcement`, though the empty string fails parsing;
then `update_one` with a `$set` of `message`, `expiration_date`, and
`start_date` only when truthy; 404 when the update matched nothing. -/
def update_announcement (st : Store) (announcement_id username message
    expiration_date : String) (start_date : Option String) : Nat × Store :=
  if ¬ is_authenticated st username then (401, st)
  else if ¬ validDateYMD expiration_date then (400, st)
  else if optTruthy start_date ∧ ¬ validDateYMD (start_date.getD "") then (400, st)
  else
    let anns :=
      updateOne st.announcements announcement_id (fun a =>
        { a with message := message, expiration_date := expiration_date,
                 start_date := if optTruthy start_date then start_date
                               else a.start_date })
    let st' := { st with announcements := anns }
    if matchedCount st.announcements announcement_id = 0 then (404, st')
    else (200, st')

/-- `delete_announcement(id, username)`
(DELETE /activities/announcements/{id}): 401 without a teacher record;
`delete_one` on the `_id`, then 404 when `deleted_count` is 0. -/
def delete_announcement (st : Store) (announcement_id username : String) :
    Nat × Store :=
  if ¬ is_authenticated st username then (401, st)
  else
    let st' := { st with announcements :=
      st.announcements.eraseP (fun p => p.1 = announcement_id) }
    if matchedCount st.announcements announcement_id = 0 then (404, st')
    else (200, st')

/-! ## Signup / unregister -/

/-- `$push {participants: email}` via `update_one` on the activity
`_id`; returns `(modified_count, store)`.  A matched `$push` always
modifies the document. -/
def pushParticipant (st : Store) (activity_name email : String) : Nat × Store :=
  (matchedCount st.activities activity_name,
   { st with activities := updateOne st.activities activity_name (fun a =>
       { a with participants := a.participants ++ [email] }) })

/-- `$pull {participants: email}` via `update_one` on the activity
`_id`; removes every occurrence from the matched document.  Modified
iff the matched document actually contained `email`. -/
def pullParticipant (st : Store) (activity_name email : String) : Nat × Store :=
  ((match findOne st.activities activity_name with
    | some a => if a.participants.contains email then 1 else 0
    | none => 0),
   { st with activities := updateOne st.activities activity_name (fun a =>
       { a with participants := a.participants.filter (fun x => x ≠ email) }) })

/-- `signup_for_activity(activity_name, email, teacher_username?)`
(POST /activities/{name}/signup): 401 when `teacher_username` is falsy
(`None` or `""`) or names no teacher record; 404 when the activity does
not exist; 400 when `email` is already a participant; otherwise `$push`
the email, with 500 when the update reports zero modified. -/
def signup_for_activity (st : Store) (activity_name email : String)
    (teacher_username : Option String) : Nat × Store :=
  if ¬ optTruthy teacher_username then (401, st)
  else if ¬ st.teachers.contains (teacher_username.getD "") then (401, st)
  else
    match findOne st.activities activity_name with
    | none => (404, st)
    | some activity =>
      if activity.participants.contains email then (400, st)
      else
        let r := pushParticipant st activity_name email
        if r.1 = 0 then (500, r.2) else (200, r.2)

/-- `unregister_from_activity(activity_name, email, teacher_username?)`
(POST /activities/{name}/unregister): same auth and existence checks as
signup; 400 when `email` is not a participant; otherwise `$pull` the
email, with 500 when the update reports zero modified. -/
def unregister_from_activity (st : Store) (activity_name email : String)
    (teacher_username : Option String) : Nat × Store :=
  if ¬ optTruthy teacher_username then (401, st)
  else if ¬ st.teachers.contains (teacher_username.getD "") then (401, st)
  else
    match findOne st.activities activity_name with
    | none => (404, st)
    | some activity =>
      if ¬ activity.participants.contains email then (400, st)
      else
        let r := pullParticipant st activity_name email
        if r.1 = 0 then (500, r.2) else (200, r.2)

/-! ## Helper lemmas about the store primitives -/

theorem updateOne_eq_of_none {β : Type} {l : List (String × β)} {id : String}
    {g : β → β} (h : l.find? (fun p => p.1 = id) = none) :
    updateOne l id g = l := by
  induction l with
  | nil => rfl
  | cons p rest ih =>
    rw [List.find?_cons] at h
    split at h
    · exact absurd h (by simp)
    · rename_i hp
      have hne : ¬ p.1 = id := by simpa using hp
      simp [updateOne, hne, ih h]

theorem find?_updateOne_self {β : Type} {l : List (String × β)} {id : String}
    {g : β → β} {p : String × β} (h : l.find? (fun q => q.1 = id) = some p) :
    (updateOne l id g).find? (fun q => q.1 = id) = some (p.1, g p.2) := by
  induction l with
  | nil => simp at h
  | cons q rest ih =>
    by_cases hq : q.1 = id
    · rw [List.find?_cons_of_pos _ (by simpa using hq)] at h
      cases h
      simp [updateOne, hq, List.find?_cons_of_pos]
    · rw [List.find?_cons_of_neg _ (by simpa using hq)] at h
      simp only [updateOne, if_neg hq]
      rw [List.find?_cons_of_neg _ (by simpa using hq)]
      exact ih h

theorem updateOne_mem {β : Type} {l : List (String × β)} {id : String}
    {g : β → β} {q : String × β} (hq : q ∈ updateOne l id g) :
    q ∈ l ∨ ∃ p, l.find? (fun r => r.1 = id) = some p ∧ q = (p.1, g p.2) := by
  induction l with
  | nil => simp [updateOne] at hq
  | cons p rest ih =>
    by_cases hp : p.1 = id
    · simp only [updateOne, if_pos hp] at hq
      rcases List.mem_cons.mp hq with h | h
      · exact Or.inr ⟨p, List.find?_cons_of_pos _ (by simpa using hp), h⟩
      · exact Or.inl (List.mem_cons_of_mem _ h)
    · simp only [updateOne, if_neg hp] at hq
      rcases List.mem_cons.mp hq with h | h
      · exact Or.inl (h ▸ List.mem_cons_self _ _)
      · rcases ih h with h' | ⟨p', hfind, hqe⟩
        · exact Or.inl (List.mem_cons_of_mem _ h')
        · exact Or.inr ⟨p', by rw [List.find?_cons_of_neg _ (by simpa using hp)]; exact hfind, hqe⟩

theorem matchedCount_eq_zero_iff {β : Type} {l : List (String × β)} {id : String} :
    matchedCount l id = 0 ↔ l.find? (fun p => p.1 = id) = none := by
  unfold matchedCount
  rw [List.find?_eq_none]
  constructor
  · intro h p hp
    by_contra hc
    rw [if_pos (List.any_eq_true.mpr ⟨p, hp, by simpa using hc⟩)] at h
    exact one_ne_zero h
  · intro h
    rw [if_neg]
    intro hany
    rcases List.any_eq_true.mp hany with ⟨p, hp, hpid⟩
    exact h p hp (by simpa using hpid)

/-- Sample store used to witness the theorems on concrete inputs:
two activities (one fully scheduled, one bare), one teacher `t`, one
announcement `a1` with a previously set `start_date`. -/
def actChess : Activity :=
  { participants := ["alice@x"],
    schedule_details := some { days := ["Monday", "Friday"],
                               start_time := some "09:00",
                               end_time := some "10:00" } }

/-- An activity document with no `schedule_details`. -/
def actArt : Activity := { participants := [], schedule_details := none }

/-- Sample store: see `actChess`. -/
def sampleStore : Store :=
  { activities := [("Chess", actChess), ("Art", actArt)],
    teachers := ["t"],
    announcements := [("a1", { message := "old", expiration_date := "2098-01-01",
                               start_date := some "2020-01-01" })],
    annCounter := 0 }

/-! ## C8: `get_available_days` -/

/-- C8: `get_available_days` returns the duplicate-free union of all
`schedule_details.days` values across all activities, sorted ascending
lexicographically; activities without schedule details contribute
nothing. -/
theorem get_available_days_spec (st : Store) :
    (get_available_days st).Nodup ∧
    List.Sorted (· ≤ ·) (get_available_days st) ∧
    ∀ d : String, d ∈ get_available_days st ↔
      ∃ p ∈ st.activities, ∃ sd, p.2.schedule_details = some sd ∧ d ∈ sd.days := by
  refine ⟨?_, ?_, ?_⟩
  · exact (List.perm_insertionSort _ _).nodup_iff.mpr (List.nodup_dedup _)
  · exact List.sorted_insertionSort _ _
  · intro d
    rw [get_available_days, List.mem_insertionSort, List.mem_dedup, unwoundDays,
      List.mem_flatMap]
    constructor
    · rintro ⟨p, hp, hd⟩
      cases hsd : p.2.schedule_details with
      | none => rw [hsd] at hd; simp at hd
      | some sd => rw [hsd] at hd; exact ⟨p, hp, sd, hsd, hd⟩
    · rintro ⟨p, hp, sd, hsd, hd⟩
      exact ⟨p, hp, by rw [hsd]; exact hd⟩

/-! ## C6: a single time bound applies no filtering -/

/-- C6: when exactly one of `start_time` / `end_time` is given and the
other is absent, `list_activities` returns exactly what it returns with
neither bound given. -/
theorem list_activities_single_bound (st : Store) (day : Option String)
    (t : Option String) :
    list_activities st day t none = list_activities st day none none ∧
    list_activities st day none t = list_activities st day none none := by
  constructor <;> cases t <;> rfl

/-! ## Filter characterizations -/

theorem dayFilter_eq_true_iff (d : String) (a : Activity) :
    dayFilter d a = true ↔ ∃ sd, a.schedule_details = some sd ∧ d ∈ sd.days := by
  unfold dayFilter
  cases hsd : a.schedule_details with
  | none => simp
  | some sd => simp

theorem timeFilter_eq_true_iff (qs qe : String) (a : Activity) :
    timeFilter qs qe a = true ↔
      ∃ sd s e, a.schedule_details = some sd ∧ sd.start_time = some s ∧
        sd.end_time = some e ∧ s ≠ "" ∧ e ≠ "" ∧ qs ≤ s ∧ e ≤ qe := by
  obtain ⟨parts, sdo⟩ := a
  cases sdo with
  | none => simp [timeFilter]
  | some sd =>
    obtain ⟨days, sto, eto⟩ := sd
    cases sto with
    | none => simp [timeFilter]
    | some s =>
      cases eto with
      | none => simp [timeFilter]
      | some e =>
        by_cases hemp : s = "" ∨ e = ""
        · constructor
          · intro h
            have h' : (if s = "" ∨ e = "" then false
                else decide (¬ (s < qs ∨ qe < e))) = true := h
            rw [if_pos hemp] at h'
            exact absurd h' (by simp)
          · rintro ⟨sd', s', e', hsd', hs', he', hs0, he0, -⟩
            cases hsd'
            cases hs'
            cases he'
            rcases hemp with h | h
            · exact absurd h hs0
            · exact absurd h he0
        · push_neg at hemp
          constructor
          · intro h
            have h' : (if s = "" ∨ e = "" then false
                else decide (¬ (s < qs ∨ qe < e))) = true := h
            rw [if_neg (by simpa using hemp), decide_eq_true_iff, not_or,
              not_lt, not_lt] at h'
            exact ⟨_, s, e, rfl, rfl, rfl, hemp.1, hemp.2, h'.1, h'.2⟩
          · rintro ⟨sd', s', e', hsd', hs', he', -, -, h1, h2⟩
            cases hsd'
            cases hs'
            cases he'
            show (if s = "" ∨ e = "" then false
              else decide (¬ (s < qs ∨ qe < e))) = true
            rw [if_neg (by simpa using hemp), decide_eq_true_iff, not_or,
              not_lt, not_lt]
            exact ⟨h1, h2⟩

/-! ## C7: the day filter -/

/-- C7: with a (truthy) `day` given, an activity appears in
`list_activities` only if its `schedule_details.days` contains `day`
exactly; in particular every activity lacking `schedule_details` is
excluded while the day filter is active. -/
theorem list_activities_day_filter (st : Store) (d : String) (hd : d ≠ "")
    (s e : Option String) (p : String × Activity)
    (hp : p ∈ list_activities st (some d) s e) :
    ∃ sd, p.2.schedule_details = some sd ∧ d ∈ sd.days := by
  rw [list_activities, List.mem_filter] at hp
  have hday : dayFilter d p.2 = true := by
    have h := hp.2
    rw [Bool.and_eq_true] at h
    have h1 : (if d = "" then true else dayFilter d p.2) = true := h.1
    rw [if_neg hd] at h1
    exact h1
  exact (dayFilter_eq_true_iff d p.2).mp hday

/-- Witness for C7 at a concrete store: `Chess` is scheduled on Monday
and survives the Monday filter. -/
theorem list_activities_day_filter_witness :
    ("Monday" : String) ≠ "" ∧
    ("Chess", actChess) ∈ list_activities sampleStore (some "Monday") none none ∧
    ∃ sd, actChess.schedule_details = some sd ∧ "Monday" ∈ sd.days :=
  ⟨by decide, by decide,
   list_activities_day_filter sampleStore "Monday" (by decide) none none
     ("Chess", actChess) (by decide)⟩

/-! ## C5: the time-range filter -/

/-- C5: with both (truthy) time bounds given, an activity is listed
exactly when it is in the store, passes the day filter (when one is
active), and has a `schedule_details` with non-empty `start_time` and
`end_time` satisfying `start_time >= qs` and `end_time <= qe` under
lexicographic string comparison. -/
theorem list_activities_time_filter (st : Store) (day : Option String)
    (qs qe : String) (hqs : qs ≠ "") (hqe : qe ≠ "") (p : String × Activity) :
    p ∈ list_activities st day (some qs) (some qe) ↔
      p ∈ st.activities ∧
      (match day with
       | some d => d = "" ∨ dayFilter d p.2 = true
       | none => True) ∧
      ∃ sd s e, p.2.schedule_details = some sd ∧ sd.start_time = some s ∧
        sd.end_time = some e ∧ s ≠ "" ∧ e ≠ "" ∧ qs ≤ s ∧ e ≤ qe := by
  rw [list_activities, List.mem_filter, Bool.and_eq_true]
  have hne : ¬ (qs = "" ∨ qe = "") := by
    rintro (h | h)
    · exact hqs h
    · exact hqe h
  constructor
  · rintro ⟨hmem, hday, htime⟩
    have htime' : (if qs = "" ∨ qe = "" then true
        else timeFilter qs qe p.2) = true := htime
    rw [if_neg hne] at htime'
    refine ⟨hmem, ?_, (timeFilter_eq_true_iff qs qe p.2).mp htime'⟩
    cases day with
    | none => trivial
    | some d =>
      have hday' : (if d = "" then true else dayFilter d p.2) = true := hday
      by_cases hd : d = ""
      · exact Or.inl hd
      · rw [if_neg hd] at hday'
        exact Or.inr hday'
  · rintro ⟨hmem, hday, htime⟩
    refine ⟨hmem, ?_, ?_⟩
    · cases day with
      | none => rfl
      | some d =>
        show (if d = "" then true else dayFilter d p.2) = true
        rcases hday with hd | hd
        · rw [if_pos hd]
        · by_cases hd0 : d = ""
          · rw [if_pos hd0]
          · rw [if_neg hd0]; exact hd
    · show (if qs = "" ∨ qe = "" then true else timeFilter qs qe p.2) = true
      rw [if_neg hne]
      exact (timeFilter_eq_true_iff qs qe p.2).mpr htime

/-- Witness for C5: `Chess` (09:00–10:00) is listed for the range
08:00–11:00. -/
theorem list_activities_time_filter_witness :
    ("08:00" : String) ≠ "" ∧ ("11:00" : String) ≠ "" ∧
    (("Chess", actChess) ∈ list_activities sampleStore none (some "08:00") (some "11:00") ↔
      ("Chess", actChess) ∈ sampleStore.activities ∧ True ∧
      ∃ sd s e, actChess.schedule_details = some sd ∧ sd.start_time = some s ∧
        sd.end_time = some e ∧ s ≠ "" ∧ e ≠ "" ∧ "08:00" ≤ s ∧ e ≤ "11:00") :=
  ⟨by decide, by decide,
   list_activities_time_filter sampleStore none "08:00" "11:00"
     (by decide) (by decide) ("Chess", actChess)⟩

/-! ## C10: date validation precedes the existence check in
`update_announcement` -/

/-- C10: for an authenticated teacher, an `expiration_date` (or a
truthy supplied `start_date`) that fails `%Y-%m-%d` parsing makes
`update_announcement` return 400 with the store unchanged, for *every*
store — in particular also when no announcement with the given id
exists, so 400 takes precedence over 404. -/
theorem update_announcement_date_check_precedes_404 (st : Store)
    (aid u msg exp : String) (sd : Option String)
    (hauth : is_authenticated st u = true)
    (hbad : validDateYMD exp = false ∨
            (optTruthy sd = true ∧ validDateYMD (sd.getD "") = false)) :
    update_announcement st aid u msg exp sd = (400, st) := by
  unfold update_announcement
  rw [if_neg (by simp [hauth])]
  rcases hbad with h | ⟨h1, h2⟩
  · rw [if_pos (by simp [h])]
  · by_cases hex : validDateYMD exp = true
    · rw [if_neg (by simp [hex]), if_pos ⟨h1, by simp [h2]⟩]
    · rw [if_pos (by simpa using hex)]

/-- Witness for C10: a malformed date on a nonexistent announcement id
still yields 400, not 404. -/
theorem update_announcement_date_check_precedes_404_witness :
    is_authenticated sampleStore "t" = true ∧
    validDateYMD "2099/01/01" = false ∧
    findOne sampleStore.announcements "zz" = none ∧
    update_announcement sampleStore "zz" "t" "m" "2099/01/01" none =
      (400, sampleStore) :=
  ⟨by decide, by decide, by decide,
   update_announcement_date_check_precedes_404 sampleStore "zz" "t" "m"
     "2099/01/01" none (by decide) (Or.inl (by decide))⟩

/-! ## C9: an omitted `start_date` is preserved by
`update_announcement` -/

theorem mem_updateOne_of_ne {β : Type} {l : List (String × β)} {id : String}
    {g : β → β} {q : String × β} (hq : q ∈ l) (hne : q.1 ≠ id) :
    q ∈ updateOne l id g := by
  induction l with
  | nil => simp at hq
  | cons p rest ih =>
    rcases List.mem_cons.mp hq with h | h
    · subst h
      simp only [updateOne, if_neg hne]
      exact List.mem_cons_self _ _
    · by_cases hp : p.1 = id
      · simp only [updateOne, if_pos hp]
        exact List.mem_cons_of_mem _ h
      · simp only [updateOne, if_neg hp]
        exact List.mem_cons_of_mem _ (ih h)

/-- C9: when a successful `update_announcement` omits `start_date`, the
targeted announcement keeps its previously stored `start_date` while
`message` and `expiration_date` are overwritten; every other collection,
the id counter, and every other announcement are untouched. -/
theorem update_announcement_omitted_start_date (st : Store)
    (aid u msg exp : String) (st' : Store)
    (h : update_announcement st aid u msg exp none = (200, st')) :
    st'.activities = st.activities ∧ st'.teachers = st.teachers ∧
    st'.annCounter = st.annCounter ∧
    findOne st'.announcements aid =
      (findOne st.announcements aid).map (fun a =>
        { message := msg, expiration_date := exp,
          start_date := a.start_date }) ∧
    ∀ q ∈ st.announcements, q.1 ≠ aid → q ∈ st'.announcements := by
  unfold update_announcement at h
  by_cases hauth : is_authenticated st u = true
  · rw [if_neg (by simp [hauth])] at h
    by_cases hex : validDateYMD exp = true
    · rw [if_neg (by simp [hex])] at h
      rw [if_neg (by simp [optTruthy])] at h
      by_cases hm : matchedCount st.announcements aid = 0
      · rw [if_pos hm] at h
        exact absurd (congrArg Prod.fst h) (by simp)
      · rw [if_neg hm] at h
        injection h with h1 h2
        subst h2
        refine ⟨rfl, rfl, rfl, ?_, ?_⟩
        · have hfind : ∃ p, st.announcements.find?
              (fun p => p.1 = aid) = some p := by
            rcases Option.eq_none_or_eq_some
                (st.announcements.find? (fun p => p.1 = aid)) with h0 | h0
            · exact absurd (matchedCount_eq_zero_iff.mpr h0) hm
            · exact h0
          rcases hfind with ⟨p, hp⟩
          show (((updateOne st.announcements aid _).find?
            (fun p => p.1 = aid)).map (·.2)) = _
          rw [find?_updateOne_self hp]
          show some _ = ((st.announcements.find?
            (fun p => p.1 = aid)).map (·.2)).map _
          rw [hp]
          rfl
        · intro q hq hqne
          exact mem_updateOne_of_ne hq hqne
    · rw [if_pos (by simpa using hex)] at h
      exact absurd (congrArg Prod.fst h) (by simp)
  · rw [if_pos (by simpa using hauth)] at h
    exact absurd (congrArg Prod.fst h) (by simp)

/-- The store after the witness update for C9. -/
def sampleStoreUpd : Store :=
  { sampleStore with announcements :=
      [("a1", { message := "new", expiration_date := "2099-01-01",
                start_date := some "2020-01-01" })] }

/-- Witness for C9: updating `a1` without a `start_date` keeps its
stored `start_date` of 2020-01-01. -/
theorem update_announcement_omitted_start_date_witness :
    update_announcement sampleStore "a1" "t" "new" "2099-01-01" none =
      (200, sampleStoreUpd) ∧
    findOne sampleStoreUpd.announcements "a1" =
      (findOne sampleStore.announcements "a1").map (fun a =>
        { message := "new", expiration_date := "2099-01-01",
          start_date := a.start_date }) :=
  ⟨by decide,
   (update_announcement_omitted_start_date sampleStore "a1" "t" "new"
     "2099-01-01" sampleStoreUpd (by decide)).2.2.2.1⟩

/-! ## C2: update does *not* re-apply create's empty-message check -/

/-- C2 counterexample: with an authenticated teacher and an existing
announcement, `update_announcement` with an *empty* `message` and a
valid `expiration_date` returns 200, not the 400 the claim requires. -/
theorem update_announcement_empty_message_accepted :
    (update_announcement sampleStore "a1" "t" "" "2099-01-01" none).1 = 200 ∧
    (update_announcement sampleStore "a1" "t" "" "2099-01-01" none).1 ≠ 400 := by
  constructor
  · decide
  · decide

/-- C2 (amended): for an authenticated teacher, `update_announcement`
returns 400 when `expiration_date` is empty (the empty string fails
`%Y-%m-%d` parsing) or a supplied date fails parsing — but, unlike
`create_announcement` (which rejects an empty `message` with 400),
`update_announcement` never returns 400 once its dates parse, even when
`message` is empty. -/
theorem update_announcement_validation_amended (st : Store)
    (aid u msg : String) (sd : Option String)
    (hauth : is_authenticated st u = true) :
    update_announcement st aid u msg "" sd = (400, st) ∧
    (∀ exp, create_announcement st u "" exp sd = (400, st)) ∧
    ∀ exp, validDateYMD exp = true →
      (optTruthy sd = true → validDateYMD (sd.getD "") = true) →
      (update_announcement st aid u msg exp sd).1 ≠ 400 := by
  refine ⟨?_, ?_, ?_⟩
  · unfold update_announcement
    rw [if_neg (by simp [hauth]), if_pos (by decide)]
  · intro exp
    unfold create_announcement
    rw [if_neg (by simp [hauth]), if_pos (Or.inl rfl)]
  · intro exp hex hsd
    unfold update_announcement
    rw [if_neg (by simp [hauth]), if_neg (by simp [hex])]
    rw [if_neg (by
      rintro ⟨h1, h2⟩
      exact h2 (by simp [hsd h1]))]
    by_cases hm : matchedCount st.announcements aid = 0
    · rw [if_pos hm]
      exact (by decide : (404 : Nat) ≠ 400)
    · rw [if_neg hm]
      exact (by decide : (200 : Nat) ≠ 400)

/-- Witness for the amended C2: the teacher `t` is authenticated; an
empty `expiration_date` is rejected, while an empty `message` with a
valid date is not. -/
theorem update_announcement_validation_amended_witness :
    is_authenticated sampleStore "t" = true ∧
    update_announcement sampleStore "a1" "t" "x" "" none = (400, sampleStore) ∧
    create_announcement sampleStore "t" "" "2099-01-01" none =
      (400, sampleStore) ∧
    (update_announcement sampleStore "a1" "t" "" "2099-01-01" none).1 ≠ 400 :=
  ⟨by decide,
   (update_announcement_validation_amended sampleStore "a1" "t" "x" none
     (by decide)).1,
   (update_announcement_validation_amended sampleStore "a1" "t" "" none
     (by decide)).2.1 "2099-01-01",
   (update_announcement_validation_amended sampleStore "a1" "t" "" none
     (by decide)).2.2 "2099-01-01" (by decide) (by decide)⟩

/-! ## C1: signup check precedence and effect -/

/-- C1: `signup_for_activity` checks in exactly this order: 401 when
`teacher_username` is absent or names no existing teacher record
(teacher usernames being non-empty strings); then 404 when the activity
does not exist; then 400 when `email` is already a participant; then it
appends `email` to the end of that activity's participants and returns
200; 500 occurs only when the `$push` update reports zero modified
documents (which the success path rules out, the activity having been
found). -/
theorem signup_for_activity_spec (st : Store) (name email : String)
    (tu : Option String) (hne : ∀ t ∈ st.teachers, t ≠ "") :
    ((tu = none ∨ ∀ u, tu = some u → u ∉ st.teachers) →
      signup_for_activity st name email tu = (401, st)) ∧
    (∀ u, tu = some u → u ∈ st.teachers →
      (findOne st.activities name = none →
        signup_for_activity st name email tu = (404, st)) ∧
      (∀ a, findOne st.activities name = some a →
        (email ∈ a.participants →
          signup_for_activity st name email tu = (400, st)) ∧
        (email ∉ a.participants →
          signup_for_activity st name email tu =
            (200, (pushParticipant st name email).2) ∧
          findOne (pushParticipant st name email).2.activities name =
            some { a with participants := a.participants ++ [email] }))) ∧
    (∀ c st', signup_for_activity st name email tu = (c, st') → c = 500 →
      (pushParticipant st name email).1 = 0) := by
  refine ⟨?_, ?_, ?_⟩
  · intro h
    unfold signup_for_activity
    cases tu with
    | none => rw [if_pos (by simp [optTruthy])]
    | some u =>
      have hnotin : u ∉ st.teachers := by
        rcases h with h | h
        · exact absurd h (by simp)
        · exact h u rfl
      by_cases hu : u = ""
      · rw [if_pos (by simp [optTruthy, hu])]
      · rw [if_neg (by simp [optTruthy, hu]),
          if_pos (by simp; simpa using hnotin)]
  · rintro u rfl hmem
    have hu : u ≠ "" := hne u hmem
    have hc : st.teachers.contains u = true := by simpa using hmem
    constructor
    · intro hfd
      unfold signup_for_activity
      rw [if_neg (by simp [optTruthy, hu]), if_neg (by simpa using hmem), hfd]
    · intro a hfd
      constructor
      · intro hpmem
        unfold signup_for_activity
        rw [if_neg (by simp [optTruthy, hu]), if_neg (by simpa using hmem), hfd]
        show (if a.participants.contains email then (400, st) else _) = (400, st)
        rw [if_pos (by simpa using hpmem)]
      · intro hpnot
        have hfind : ∃ p, st.activities.find? (fun p => p.1 = name) = some p ∧
            p.2 = a := by
          rcases Option.eq_none_or_eq_some
              (st.activities.find? (fun p => p.1 = name)) with h0 | ⟨p, h0⟩
          · rw [findOne, h0] at hfd; exact absurd hfd (by simp)
          · refine ⟨p, h0, ?_⟩
            rw [findOne, h0] at hfd
            exact Option.some_injective _ hfd
        rcases hfind with ⟨p, hp, hpa⟩
        have hm : ¬ matchedCount st.activities name = 0 := by
          intro h0
          rw [matchedCount_eq_zero_iff.mp h0] at hp
          exact absurd hp (by simp)
        constructor
        · unfold signup_for_activity
          rw [if_neg (by simp [optTruthy, hu]), if_neg (by simpa using hmem), hfd]
          show (if a.participants.contains email then _ else _) = _
          rw [if_neg (by simpa using hpnot)]
          show (if (pushParticipant st name email).1 = 0 then _
            else ((200 : Nat), (pushParticipant st name email).2)) = _
          rw [if_neg (by simpa [pushParticipant] using hm)]
        · show ((updateOne st.activities name _).find?
            (fun p => p.1 = name)).map (·.2) = _
          rw [find?_updateOne_self hp]
          rw [hpa]
          rfl
  · intro c st' h hc
    unfold signup_for_activity at h
    by_cases h1 : optTruthy tu = true
    · rw [if_neg (by simp [h1])] at h
      by_cases h2 : st.teachers.contains (tu.getD "") = true
      · have hmem2 : tu.getD "" ∈ st.teachers := by simpa using h2
        rw [if_neg (by simpa using hmem2)] at h
        rcases Option.eq_none_or_eq_some
            (findOne st.activities name) with h0 | ⟨a, h0⟩
        · rw [h0] at h
          injection h with h3 h4
          rw [hc] at h3
          exact absurd h3 (by decide)
        · rw [h0] at h
          by_cases h5 : a.participants.contains email = true
          · rw [show (match some a with
              | none => ((404 : Nat), st)
              | some activity =>
                if activity.participants.contains email then (400, st)
                else if (pushParticipant st name email).1 = 0 then
                  (500, (pushParticipant st name email).2)
                else (200, (pushParticipant st name email).2)) =
              (if a.participants.contains email then (400, st)
                else if (pushParticipant st name email).1 = 0 then
                  (500, (pushParticipant st name email).2)
                else (200, (pushParticipant st name email).2)) from rfl,
              if_pos h5] at h
            injection h with h3 h4
            rw [hc] at h3
            exact absurd h3 (by decide)
          · rw [show (match some a with
              | none => ((404 : Nat), st)
              | some activity =>
                if activity.participants.contains email then (400, st)
                else if (pushParticipant st name email).1 = 0 then
                  (500, (pushParticipant st name email).2)
                else (200, (pushParticipant st name email).2)) =
              (if a.participants.contains email then (400, st)
                else if (pushParticipant st name email).1 = 0 then
                  (500, (pushParticipant st name email).2)
                else (200, (pushParticipant st name email).2)) from rfl,
              if_neg (by simpa using h5)] at h
            by_cases h6 : (pushParticipant st name email).1 = 0
            · exact h6
            · rw [if_neg h6] at h
              injection h with h3 h4
              rw [hc] at h3
              exact absurd h3 (by decide)
      · rw [if_pos (by simpa using h2)] at h
        injection h with h3 h4
        rw [hc] at h3
        exact absurd h3 (by decide)
    · rw [if_pos (by simpa using h1)] at h
      injection h with h3 h4
      rw [hc] at h3
      exact absurd h3 (by decide)

/-- Witness for C1: signing `bob@x` up for `Chess` as teacher `t`
succeeds and appends him at the end of the participants. -/
theorem signup_for_activity_spec_witness :
    (∀ t ∈ sampleStore.teachers, t ≠ "") ∧
    ("t" : String) ∈ sampleStore.teachers ∧
    findOne sampleStore.activities "Chess" = some actChess ∧
    "bob@x" ∉ actChess.participants ∧
    signup_for_activity sampleStore "Chess" "bob@x" (some "t") =
      (200, (pushParticipant sampleStore "Chess" "bob@x").2) ∧
    findOne (pushParticipant sampleStore "Chess" "bob@x").2.activities "Chess" =
      some { actChess with participants := actChess.participants ++ ["bob@x"] } := by
  refine ⟨by decide, by decide, by decide, by decide, ?_, ?_⟩
  · exact ((((signup_for_activity_spec sampleStore "Chess" "bob@x" (some "t")
      (by decide)).2.1 "t" rfl (by decide)).2 actChess (by decide)).2
      (by decide)).1
  · exact ((((signup_for_activity_spec sampleStore "Chess" "bob@x" (some "t")
      (by decide)).2.1 "t" rfl (by decide)).2 actChess (by decide)).2
      (by decide)).2

/-! ## Case analyses of signup and unregister -/

theorem signup_cases (st : Store) (name email : String) (tu : Option String) :
    (∃ c, signup_for_activity st name email tu = (c, st) ∧
      (c = 401 ∨ c = 404 ∨ c = 400)) ∨
    (∃ a, findOne st.activities name = some a ∧ email ∉ a.participants ∧
      ((signup_for_activity st name email tu =
          (500, (pushParticipant st name email).2) ∧
        (pushParticipant st name email).1 = 0) ∨
       signup_for_activity st name email tu =
         (200, (pushParticipant st name email).2))) := by
  unfold signup_for_activity
  by_cases h1 : optTruthy tu = true
  · rw [if_neg (by simp [h1])]
    by_cases h2 : st.teachers.contains (tu.getD "") = true
    · have hmem2 : tu.getD "" ∈ st.teachers := by simpa using h2
      rw [if_neg (by simpa using hmem2)]
      rcases Option.eq_none_or_eq_some (findOne st.activities name) with h0 | ⟨a, h0⟩
      · rw [h0]
        exact Or.inl ⟨404, rfl, Or.inr (Or.inl rfl)⟩
      · simp only [h0]
        by_cases h5 : email ∈ a.participants
        · rw [if_pos (by simpa using h5)]
          exact Or.inl ⟨400, rfl, Or.inr (Or.inr rfl)⟩
        · rw [if_neg (by simpa using h5)]
          refine Or.inr ⟨a, rfl, h5, ?_⟩
          by_cases h6 : (pushParticipant st name email).1 = 0
          · exact Or.inl ⟨by rw [if_pos h6], h6⟩
          · exact Or.inr (by rw [if_neg h6])
    · rw [if_pos (by simpa using h2)]
      exact Or.inl ⟨401, rfl, Or.inl rfl⟩
  · rw [if_pos (by simpa using h1)]
    exact Or.inl ⟨401, rfl, Or.inl rfl⟩

theorem unregister_cases (st : Store) (name email : String) (tu : Option String) :
    (∃ c, unregister_from_activity st name email tu = (c, st) ∧
      (c = 401 ∨ c = 404 ∨ c = 400)) ∨
    (∃ a, findOne st.activities name = some a ∧ email ∈ a.participants ∧
      ((unregister_from_activity st name email tu =
          (500, (pullParticipant st name email).2) ∧
        (pullParticipant st name email).1 = 0) ∨
       unregister_from_activity st name email tu =
         (200, (pullParticipant st name email).2))) := by
  unfold unregister_from_activity
  by_cases h1 : optTruthy tu = true
  · rw [if_neg (by simp [h1])]
    by_cases h2 : st.teachers.contains (tu.getD "") = true
    · have hmem2 : tu.getD "" ∈ st.teachers := by simpa using h2
      rw [if_neg (by simpa using hmem2)]
      rcases Option.eq_none_or_eq_some (findOne st.activities name) with h0 | ⟨a, h0⟩
      · rw [h0]
        exact Or.inl ⟨404, rfl, Or.inr (Or.inl rfl)⟩
      · simp only [h0]
        by_cases h5 : email ∈ a.participants
        · rw [if_neg (by simpa using h5)]
          refine Or.inr ⟨a, rfl, h5, ?_⟩
          by_cases h6 : (pullParticipant st name email).1 = 0
          · exact Or.inl ⟨by rw [if_pos h6], h6⟩
          · exact Or.inr (by rw [if_neg h6])
        · rw [if_pos (by simpa using h5)]
          exact Or.inl ⟨400, rfl, Or.inr (Or.inr rfl)⟩
    · rw [if_pos (by simpa using h2)]
      exact Or.inl ⟨401, rfl, Or.inl rfl⟩
  · rw [if_pos (by simpa using h1)]
    exact Or.inl ⟨401, rfl, Or.inl rfl⟩

theorem signup_ok_facts (st : Store) (name email : String) (tu : Option String)
    (st₁ : Store) (h : signup_for_activity st name email tu = (200, st₁)) :
    optTruthy tu = true ∧ st.teachers.contains (tu.getD "") = true ∧
    ∃ p, st.activities.find? (fun q => q.1 = name) = some p ∧
      email ∉ p.2.participants ∧ st₁ = (pushParticipant st name email).2 := by
  unfold signup_for_activity at h
  by_cases h1 : optTruthy tu = true
  · rw [if_neg (by simp [h1])] at h
    by_cases h2 : st.teachers.contains (tu.getD "") = true
    · have hmem2 : tu.getD "" ∈ st.teachers := by simpa using h2
      rw [if_neg (by simpa using hmem2)] at h
      rcases Option.eq_none_or_eq_some (findOne st.activities name) with h0 | ⟨a, h0⟩
      · rw [h0] at h
        injection h with h3 _
        exact absurd h3 (by decide)
      · have hp : ∃ p, st.activities.find? (fun q => q.1 = name) = some p ∧
            p.2 = a := by
          rcases Option.eq_none_or_eq_some
              (st.activities.find? (fun q => q.1 = name)) with hq | ⟨p, hq⟩
          · rw [findOne, hq] at h0
            exact absurd h0 (by simp)
          · refine ⟨p, hq, ?_⟩
            rw [findOne, hq] at h0
            exact Option.some_injective _ h0
        rcases hp with ⟨p, hq, hpa⟩
        simp only [h0] at h
        by_cases h5 : email ∈ a.participants
        · rw [if_pos (by simpa using h5)] at h
          injection h with h3 _
          exact absurd h3 (by decide)
        · rw [if_neg (by simpa using h5)] at h
          by_cases h6 : (pushParticipant st name email).1 = 0
          · rw [if_pos h6] at h
            injection h with h3 _
            exact absurd h3 (by decide)
          · rw [if_neg h6] at h
            injection h with _ h4
            refine ⟨h1, h2, p, hq, ?_, h4.symm⟩
            rw [hpa]
            exact h5
    · rw [if_pos (by simpa using h2)] at h
      injection h with h3 _
      exact absurd h3 (by decide)
  · rw [if_pos (by simpa using h1)] at h
    injection h with h3 _
    exact absurd h3 (by decide)

/-! ## C3: no duplicate participants, and duplicate signup rejection -/

/-- C3: starting from any store whose participants lists are
duplicate-free, both `signup_for_activity` and
`unregister_from_activity` leave every participants list
duplicate-free (whatever their outcome), and a second signup of the
same email right after a successful one returns 400 and leaves the
store unchanged. -/
theorem participants_nodup_invariant (st : Store)
    (hinv : ∀ p ∈ st.activities, p.2.participants.Nodup)
    (name email : String) (tu : Option String) :
    (∀ p ∈ (signup_for_activity st name email tu).2.activities,
       p.2.participants.Nodup) ∧
    (∀ p ∈ (unregister_from_activity st name email tu).2.activities,
       p.2.participants.Nodup) ∧
    (∀ st₁, signup_for_activity st name email tu = (200, st₁) →
       signup_for_activity st₁ name email tu = (400, st₁)) := by
  refine ⟨?_, ?_, ?_⟩
  · rcases signup_cases st name email tu with ⟨c0, h0, -⟩ | ⟨a, ha, hnot, h0⟩
    · rw [h0]
      exact hinv
    · have h2 : (signup_for_activity st name email tu).2 =
          (pushParticipant st name email).2 := by
        rcases h0 with ⟨h0, -⟩ | h0 <;> rw [h0]
      rw [h2]
      intro p hp
      have hp' : p ∈ updateOne st.activities name
          (fun a => { a with participants := a.participants ++ [email] }) := hp
      rcases updateOne_mem hp' with hmem | ⟨q, hq, rfl⟩
      · exact hinv p hmem
      · have hqa : q.2 = a := by
          rw [findOne, hq] at ha
          exact Option.some_injective _ ha
      -- the pushed entry: its participants are the old ones plus `email`
        have hnd : q.2.participants.Nodup :=
          hinv q (List.mem_of_find?_eq_some hq)
        show (q.2.participants ++ [email]).Nodup
        rw [List.nodup_append]
        refine ⟨hnd, List.nodup_singleton _, ?_⟩
        intro x hx hx'
        rw [List.mem_singleton] at hx'
        subst hx'
        rw [hqa] at hx
        exact hnot hx
  · rcases unregister_cases st name email tu with ⟨c0, h0, -⟩ | ⟨a, ha, hmem0, h0⟩
    · rw [h0]
      exact hinv
    · have h2 : (unregister_from_activity st name email tu).2 =
          (pullParticipant st name email).2 := by
        rcases h0 with ⟨h0, -⟩ | h0 <;> rw [h0]
      rw [h2]
      intro p hp
      have hp' : p ∈ updateOne st.activities name
          (fun a => { a with participants :=
            a.participants.filter (fun x => x ≠ email) }) := hp
      rcases updateOne_mem hp' with hmem | ⟨q, hq, rfl⟩
      · exact hinv p hmem
      · exact (hinv q (List.mem_of_find?_eq_some hq)).filter _
  · intro st₁ h
    obtain ⟨ht, hc, p, hp, hnot, rfl⟩ := signup_ok_facts st name email tu st₁ h
    have hmem2 : tu.getD "" ∈ st.teachers := by simpa using hc
    have hfd2 : findOne (pushParticipant st name email).2.activities name =
        some { p.2 with participants := p.2.participants ++ [email] } := by
      show ((updateOne st.activities name _).find? (fun q => q.1 = name)).map
        (·.2) = _
      rw [find?_updateOne_self hp]
      rfl
    unfold signup_for_activity
    rw [if_neg (by simp [ht])]
    rw [if_neg (by
      show ¬ ¬ (pushParticipant st name email).2.teachers.contains
        (tu.getD "") = true
      simpa using hmem2)]
    simp only [hfd2]
    rw [if_pos (by simp)]

/-- Witness for C3: the sample store has duplicate-free participant
lists, and a successful signup followed by the same signup yields 400
with the store unchanged. -/
theorem participants_nodup_invariant_witness :
    (∀ p ∈ sampleStore.activities, p.2.participants.Nodup) ∧
    (∀ p ∈ (signup_for_activity sampleStore "Chess" "bob@x"
        (some "t")).2.activities, p.2.participants.Nodup) ∧
    (signup_for_activity sampleStore "Chess" "bob@x" (some "t") =
      (200, (pushParticipant sampleStore "Chess" "bob@x").2) ∧
     signup_for_activity (pushParticipant sampleStore "Chess" "bob@x").2
        "Chess" "bob@x" (some "t") =
      (400, (pushParticipant sampleStore "Chess" "bob@x").2)) := by
  refine ⟨by decide, ?_, by decide, ?_⟩
  · exact (participants_nodup_invariant sampleStore (by decide) "Chess" "bob@x"
      (some "t")).1
  · exact (participants_nodup_invariant sampleStore (by decide) "Chess" "bob@x"
      (some "t")).2.2 _ (by decide)

/-! ## C4: error statuses leave the store unchanged -/

/-- C4: every handler that returns 400, 401 or 404 leaves the entire
store (activities, teachers, announcements, id counter) exactly as it
was: failures are all-or-nothing. -/
theorem error_status_leaves_store_unchanged (st : Store) (an em : String)
    (tu : Option String) (aid u msg exp : String) (sd : Option String) :
    (∀ c st', signup_for_activity st an em tu = (c, st') →
      c = 400 ∨ c = 401 ∨ c = 404 → st' = st) ∧
    (∀ c st', unregister_from_activity st an em tu = (c, st') →
      c = 400 ∨ c = 401 ∨ c = 404 → st' = st) ∧
    (∀ c st', create_announcement st u msg exp sd = (c, st') →
      c = 400 ∨ c = 401 ∨ c = 404 → st' = st) ∧
    (∀ c st', update_announcement st aid u msg exp sd = (c, st') →
      c = 400 ∨ c = 401 ∨ c = 404 → st' = st) ∧
    (∀ c st', delete_announcement st aid u = (c, st') →
      c = 400 ∨ c = 401 ∨ c = 404 → st' = st) := by
  refine ⟨?_, ?_, ?_, ?_, ?_⟩
  · intro c st' h hcs
    rcases signup_cases st an em tu with ⟨c0, h0, -⟩ | ⟨a, -, -, h0⟩
    · rw [h0] at h
      injection h with _ h2
      exact h2.symm
    · have : c = 500 ∨ c = 200 := by
        rcases h0 with ⟨h0, -⟩ | h0 <;> rw [h0] at h <;> injection h with h1 _
        · exact Or.inl h1.symm
        · exact Or.inr h1.symm
      rcases this with rfl | rfl <;>
        rcases hcs with h' | h' | h' <;> exact absurd h' (by decide)
  · intro c st' h hcs
    rcases unregister_cases st an em tu with ⟨c0, h0, -⟩ | ⟨a, -, -, h0⟩
    · rw [h0] at h
      injection h with _ h2
      exact h2.symm
    · have : c = 500 ∨ c = 200 := by
        rcases h0 with ⟨h0, -⟩ | h0 <;> rw [h0] at h <;> injection h with h1 _
        · exact Or.inl h1.symm
        · exact Or.inr h1.symm
      rcases this with rfl | rfl <;>
        rcases hcs with h' | h' | h' <;> exact absurd h' (by decide)
  · intro c st' h hcs
    unfold create_announcement at h
    by_cases h1 : is_authenticated st u = true
    · rw [if_neg (by simp [h1])] at h
      by_cases h2 : msg = "" ∨ exp = ""
      · rw [if_pos h2] at h
        injection h with _ h4
        exact h4.symm
      · rw [if_neg h2] at h
        by_cases h3 : validDateYMD exp = true
        · rw [if_neg (by simp [h3])] at h
          by_cases h4 : optTruthy sd = true ∧ ¬ validDateYMD (sd.getD "") = true
          · rw [if_pos h4] at h
            injection h with _ h5
            exact h5.symm
          · rw [if_neg h4] at h
            injection h with h5 _
            rcases hcs with h' | h' | h' <;> rw [← h5] at h' <;>
              exact absurd h' (by decide)
        · rw [if_pos (by simpa using h3)] at h
          injection h with _ h4
          exact h4.symm
    · rw [if_pos (by simpa using h1)] at h
      injection h with _ h4
      exact h4.symm
  · intro c st' h hcs
    unfold update_announcement at h
    by_cases h1 : is_authenticated st u = true
    · rw [if_neg (by simp [h1])] at h
      by_cases h3 : validDateYMD exp = true
      · rw [if_neg (by simp [h3])] at h
        by_cases h4 : optTruthy sd = true ∧ ¬ validDateYMD (sd.getD "") = true
        · rw [if_pos h4] at h
          injection h with _ h5
          exact h5.symm
        · rw [if_neg h4] at h
          by_cases hm : matchedCount st.announcements aid = 0
          · rw [if_pos hm] at h
            injection h with _ h5
            rw [← h5, updateOne_eq_of_none (matchedCount_eq_zero_iff.mp hm)]
          · rw [if_neg hm] at h
            injection h with h5 _
            rcases hcs with h' | h' | h' <;> rw [← h5] at h' <;>
              exact absurd h' (by decide)
      · rw [if_pos (by simpa using h3)] at h
        injection h with _ h4
        exact h4.symm
    · rw [if_pos (by simpa using h1)] at h
      injection h with _ h4
      exact h4.symm
  · intro c st' h hcs
    unfold delete_announcement at h
    by_cases h1 : is_authenticated st u = true
    · rw [if_neg (by simp [h1])] at h
      by_cases hm : matchedCount st.announcements aid = 0
      · rw [if_pos hm] at h
        injection h with _ h5
        rw [← h5, List.eraseP_of_forall_not]
        intro a ha
        simpa using List.find?_eq_none.mp (matchedCount_eq_zero_iff.mp hm) a ha
      · rw [if_neg hm] at h
        injection h with h5 _
        rcases hcs with h' | h' | h' <;> rw [← h5] at h' <;>
          exact absurd h' (by decide)
    · rw [if_pos (by simpa using h1)] at h
      injection h with _ h4
      exact h4.symm

/-- Witness for C4: a 401 signup and a 404 announcement update both
leave the sample store untouched. -/
theorem error_status_leaves_store_unchanged_witness :
    signup_for_activity sampleStore "Chess" "bob@x" none = (401, sampleStore) ∧
    update_announcement sampleStore "zz" "t" "m" "2099-01-01" none =
      (404, sampleStore) ∧
    sampleStore = sampleStore :=
  ⟨by decide, by decide,
   (error_status_leaves_store_unchanged sampleStore "Chess" "bob@x" none
     "zz" "t" "m" "2099-01-01" none).2.2.2.1 404 sampleStore (by decide)
     (Or.inr (Or.inr rfl))⟩

end ActivityService
